import Mathlib

/-!
Verification of the CardCrafter core (layout, template validation, rendering
orchestration, resource caching) via a shallow embedding of the Python
sources `value_objects.py`, `styles.py`, `features.py`, `template.py` and
`render.py`. Python integers are `Int`; Python `//` (floor division) is
`Int.fdiv`; Python floats that carry no arithmetic in the embedded code are
`Rat`; methods that can raise return `Except String`; mutation of caches is
explicit state passing.
-/

namespace CardCrafter

/-- `BBox` value object from `value_objects.py`: immutable (x, y, w, h). -/
structure BBox where
  x : Int
  y : Int
  w : Int
  h : Int
deriving DecidableEq, Repr

/-- Python `f"{bbox}"` rendering of the `BBox` NamedTuple. -/
def BBox.pyRepr (b : BBox) : String :=
  "BBox(x=" ++ toString b.x ++ ", y=" ++ toString b.y ++
  ", w=" ++ toString b.w ++ ", h=" ++ toString b.h ++ ")"

/-- `Resolution` value object from `value_objects.py`. -/
structure Resolution where
  width : Int
  height : Int
deriving DecidableEq, Repr

/-- Python `f"{resolution}"` rendering of the `Resolution` NamedTuple. -/
def Resolution.pyRepr (r : Resolution) : String :=
  "Resolution(width=" ++ toString r.width ++ ", height=" ++ toString r.height ++ ")"

/-- `Anchor` enum from `value_objects.py`. -/
inductive Anchor where
  | TopLeft | Top | TopRight | Left | Center | Right
  | BottomLeft | Bottom | BottomRight | Bleed
deriving DecidableEq, Repr

/-- `Align` enum from `value_objects.py`. -/
inductive Align where
  | Left | Center | Right
deriving DecidableEq, Repr

/-- `FitMode` enum from `value_objects.py`. -/
inductive FitMode where
  | Cover | Contain | ScaleDown
deriving DecidableEq, Repr

/-- `TextStyle` from `styles.py` (base `Style` fields inlined; Python floats
that the embedded code never computes with are `Rat`). -/
structure TextStyle where
  color : String := "#000000"
  opacity : Rat := 1
  fontPath : String := ""
  fontSize : Int := 12
  lineHeight : Rat := 1
  align : Align := Align.Left
  wrap : Bool := true
  ellipsis : Bool := false
  strokeColor : Option String := none
  strokeWidth : Int := 0
  letterSpacing : Rat := 0
deriving DecidableEq, Repr

/-- `ImageStyle` from `styles.py` (base `Style` fields inlined). -/
structure ImageStyle where
  color : String := "#FFFFFF"
  opacity : Rat := 1
  fit : FitMode := FitMode.Cover
  radius : Int := 0
  tint : Option String := none
  contrast : Rat := 0
  brightness : Rat := 0
deriving DecidableEq, Repr

/-- The concrete `Feature` variant: `TextFeature(textKey, fallbackText, style)`
or `ImageFeature(imageKey, fallbackImage, style)` from `features.py`. -/
inductive FeatureKind where
  | text (textKey : String) (fallbackText : String) (style : TextStyle)
  | image (imageKey : String) (fallbackImage : String) (style : ImageStyle)
deriving DecidableEq, Repr

/-- A `Feature` from `features.py`: the abstract base fields plus the
variant payload (`TextFeature` / `ImageFeature` are a closed set). -/
structure Feature where
  id : String
  name : String
  layer : Int := 0
  anchor : Anchor := Anchor.TopLeft
  bbox : BBox := ⟨0, 0, 0, 0⟩
  enabled : Bool := true
  kind : FeatureKind
deriving DecidableEq, Repr

/-- `Feature.validate` from `features.py`: empty id, empty name, then
negative declared bbox dimensions. -/
def Feature.validate (f : Feature) : Except String Unit :=
  if f.id = "" then Except.error "Feature id cannot be empty"
  else if f.name = "" then Except.error "Feature name cannot be empty"
  else if f.bbox.w < 0 ∨ f.bbox.h < 0 then
    Except.error ("Bounding box dimensions must be non-negative: " ++ f.bbox.pyRepr)
  else Except.ok ()

/-- `Feature.layout` from `features.py`: resolve effective w/h (0 or negative
declared dimension means full canvas, since Python tests `bbox.w > 0`), then
position by anchor; Python `//` is floor division (`Int.fdiv`). -/
def Feature.layout (f : Feature) (canvasW canvasH : Int) : BBox :=
  let w := if f.bbox.w > 0 then f.bbox.w else canvasW
  let h := if f.bbox.h > 0 then f.bbox.h else canvasH
  match f.anchor with
  | Anchor.TopLeft => ⟨f.bbox.x, f.bbox.y, w, h⟩
  | Anchor.Top => ⟨(canvasW - w).fdiv 2 + f.bbox.x, f.bbox.y, w, h⟩
  | Anchor.TopRight => ⟨canvasW - w + f.bbox.x, f.bbox.y, w, h⟩
  | Anchor.Left => ⟨f.bbox.x, (canvasH - h).fdiv 2 + f.bbox.y, w, h⟩
  | Anchor.Center => ⟨(canvasW - w).fdiv 2 + f.bbox.x, (canvasH - h).fdiv 2 + f.bbox.y, w, h⟩
  | Anchor.Right => ⟨canvasW - w + f.bbox.x, (canvasH - h).fdiv 2 + f.bbox.y, w, h⟩
  | Anchor.BottomLeft => ⟨f.bbox.x, canvasH - h + f.bbox.y, w, h⟩
  | Anchor.Bottom => ⟨(canvasW - w).fdiv 2 + f.bbox.x, canvasH - h + f.bbox.y, w, h⟩
  | Anchor.BottomRight => ⟨canvasW - w + f.bbox.x, canvasH - h + f.bbox.y, w, h⟩
  | Anchor.Bleed => ⟨0, 0, canvasW, canvasH⟩

/-- A text feature with the given anchor and bbox, used to instantiate the
layout claims on concrete geometry. -/
def probeFeature (a : Anchor) (b : BBox) : Feature :=
  { id := "f", name := "f", anchor := a, bbox := b, kind := FeatureKind.text "k" "" {} }

/-- On every non-Bleed anchor the resolved width is the effective width:
the declared width when positive, the canvas width otherwise. -/
theorem layout_w_eq (f : Feature) (canvasW canvasH : Int) (hb : f.anchor ≠ Anchor.Bleed) :
    (f.layout canvasW canvasH).w = if f.bbox.w > 0 then f.bbox.w else canvasW := by
  cases h : f.anchor <;> first | exact absurd h hb | simp [Feature.layout, h]

/-- On every non-Bleed anchor the resolved height is the effective height:
the declared height when positive, the canvas height otherwise. -/
theorem layout_h_eq (f : Feature) (canvasW canvasH : Int) (hb : f.anchor ≠ Anchor.Bleed) :
    (f.layout canvasW canvasH).h = if f.bbox.h > 0 then f.bbox.h else canvasH := by
  cases h : f.anchor <;> first | exact absurd h hb | simp [Feature.layout, h]

/-- On anchor Bleed, layout ignores the declared bbox entirely. -/
theorem layout_bleed (f : Feature) (canvasW canvasH : Int) (hb : f.anchor = Anchor.Bleed) :
    f.layout canvasW canvasH = ⟨0, 0, canvasW, canvasH⟩ := by
  simp [Feature.layout, hb]

/-- C1: `Feature.layout` resolves position from the anchor by the spec's
formulas with floor-division centering: on declared bbox (0,0,100,50) and
canvas 800×600, TopLeft yields (0,0,100,50), Center yields (350,275,100,50),
BottomRight yields (700,550,100,50); and anchor Bleed yields (0,0,800,600)
for every declared bbox. -/
theorem layout_anchor_cases_800x600 :
    (probeFeature Anchor.TopLeft ⟨0, 0, 100, 50⟩).layout 800 600 = ⟨0, 0, 100, 50⟩ ∧
    (probeFeature Anchor.Center ⟨0, 0, 100, 50⟩).layout 800 600 = ⟨350, 275, 100, 50⟩ ∧
    (probeFeature Anchor.BottomRight ⟨0, 0, 100, 50⟩).layout 800 600 = ⟨700, 550, 100, 50⟩ ∧
    ∀ b : BBox, (probeFeature Anchor.Bleed b).layout 800 600 = ⟨0, 0, 800, 600⟩ := by
  refine ⟨by decide, by decide, by decide, fun b => rfl⟩

/-- C2 counterexample: a non-zero (negative) declared width does not pass
through layout unchanged — on declared bbox (0,0,-5,10) with anchor TopLeft,
the resolved width is the canvas width 800, not -5. -/
theorem layout_negative_width_not_passthrough :
    (probeFeature Anchor.TopLeft ⟨0, 0, -5, 10⟩).bbox.w = -5 ∧
    (probeFeature Anchor.TopLeft ⟨0, 0, -5, 10⟩).bbox.w ≠ 0 ∧
    ((probeFeature Anchor.TopLeft ⟨0, 0, -5, 10⟩).layout 800 600).w = 800 := by
  decide

/-- C2 (amended): on every non-Bleed anchor, layout substitutes the canvas
dimension whenever the declared dimension is ≤ 0 (so 0 and negative values
alike), each axis independently, and a positive declared dimension passes
through unchanged; on anchor Bleed the resolved bbox is always the full
canvas regardless of the declared bbox. -/
theorem layout_dimension_resolution (f : Feature) (canvasW canvasH : Int) :
    (f.anchor ≠ Anchor.Bleed →
      (f.bbox.w ≤ 0 → (f.layout canvasW canvasH).w = canvasW) ∧
      (0 < f.bbox.w → (f.layout canvasW canvasH).w = f.bbox.w) ∧
      (f.bbox.h ≤ 0 → (f.layout canvasW canvasH).h = canvasH) ∧
      (0 < f.bbox.h → (f.layout canvasW canvasH).h = f.bbox.h)) ∧
    (f.anchor = Anchor.Bleed → f.layout canvasW canvasH = ⟨0, 0, canvasW, canvasH⟩) := by
  constructor
  · intro hb
    rw [layout_w_eq f canvasW canvasH hb, layout_h_eq f canvasW canvasH hb]
    refine ⟨fun hw => ?_, fun hw => ?_, fun hh => ?_, fun hh => ?_⟩
    · rw [if_neg (by omega)]
    · rw [if_pos hw]
    · rw [if_neg (by omega)]
    · rw [if_pos hh]
  · exact layout_bleed f canvasW canvasH

/-- Witness for the amended C2 at a concrete feature and canvas. -/
theorem layout_dimension_resolution_witness :
    ((probeFeature Anchor.Top ⟨3, 4, 0, 7⟩).layout 800 600).w = 800 ∧
    ((probeFeature Anchor.Top ⟨3, 4, 0, 7⟩).layout 800 600).h = 7 := by
  have h := layout_dimension_resolution (probeFeature Anchor.Top ⟨3, 4, 0, 7⟩) 800 600
  exact ⟨(h.1 (by decide)).1 (by decide), (h.1 (by decide)).2.2.2 (by decide)⟩

/-- C9: for any feature (any anchor, any declared bbox, negative dimensions
included) and positive canvas, the resolved bbox has non-negative width and
height. -/
theorem layout_resolved_nonneg (f : Feature) (canvasW canvasH : Int)
    (hw : 0 < canvasW) (hh : 0 < canvasH) :
    0 ≤ (f.layout canvasW canvasH).w ∧ 0 ≤ (f.layout canvasW canvasH).h := by
  by_cases hb : f.anchor = Anchor.Bleed
  · rw [layout_bleed f canvasW canvasH hb]
    exact ⟨le_of_lt hw, le_of_lt hh⟩
  · rw [layout_w_eq f canvasW canvasH hb, layout_h_eq f canvasW canvasH hb]
    constructor
    · split <;> omega
    · split <;> omega

/-- Witness for C9 at a concrete feature with negative declared dimensions. -/
theorem layout_resolved_nonneg_witness :
    (0 : Int) < 800 ∧ (0 : Int) < 600 ∧
    0 ≤ ((probeFeature Anchor.Center ⟨-3, -9, -5, -10⟩).layout 800 600).w ∧
    0 ≤ ((probeFeature Anchor.Center ⟨-3, -9, -5, -10⟩).layout 800 600).h := by
  refine ⟨by decide, by decide,
    layout_resolved_nonneg (probeFeature Anchor.Center ⟨-3, -9, -5, -10⟩) 800 600
      (by decide) (by decide)⟩

/-- `Template` from `template.py`: name, resolution, print metadata and the
ordered feature list, as stored by `__init__` after its argument checks. -/
structure Template where
  name : String
  resolution : Resolution
  dpi : Int := 300
  safeMargin : Int := 0
  bleed : Int := 0
  features : List Feature := []
deriving DecidableEq, Repr

/-- `Template.__init__` from `template.py`: rejects non-positive dpi and
negative safeMargin/bleed, then stores all arguments untouched. -/
def mkTemplate (name : String) (resolution : Resolution) (dpi : Int := 300)
    (safeMargin : Int := 0) (bleed : Int := 0) (features : List Feature := []) :
    Except String Template :=
  if dpi ≤ 0 then Except.error ("dpi must be positive, got " ++ toString dpi)
  else if safeMargin < 0 then
    Except.error ("safeMargin must be non-negative, got " ++ toString safeMargin)
  else if bleed < 0 then Except.error ("bleed must be non-negative, got " ++ toString bleed)
  else Except.ok ⟨name, resolution, dpi, safeMargin, bleed, features⟩

/-- Stable insertion into a layer-sorted list: the new element goes before
the first element whose layer is not smaller, so an equal-layer element
already present stays in front of it. -/
def insertByLayer (f : Feature) : List Feature → List Feature
  | [] => [f]
  | g :: gs => if g.layer < f.layer then g :: insertByLayer f gs else f :: g :: gs

/-- Stable sort by ascending layer, the behaviour of Python's stable
`sorted(features, key=lambda f: f.layer)`. -/
def sortByLayer : List Feature → List Feature
  | [] => []
  | f :: fs => insertByLayer f (sortByLayer fs)

/-- `Template.getFeaturesByLayer` from `template.py`: `sorted` builds a new
list from the stored features. -/
def Template.getFeaturesByLayer (t : Template) : List Feature :=
  sortByLayer t.features

/-- `Template.getFeaturesByLayer` with the receiver threaded explicitly, the
state-passing embedding of the method call: Python's `sorted` returns a
fresh list and leaves `self.features` untouched. -/
def Template.getFeaturesByLayerM (t : Template) : List Feature × Template :=
  (sortByLayer t.features, t)

/-- Feature loop of `Template.validate`: validate each feature in
declaration order, wrapping the first failure with the feature's name
(Python's `getattr(feature, "name", f"at index {i}")` always finds `name`
on a `Feature`, so the index fallback is dead; the index is threaded only
to mirror `enumerate`). -/
def validateFeatures : List Feature → Nat → Except String Unit
  | [], _ => Except.ok ()
  | f :: fs, i =>
    match f.validate with
    | Except.ok () => validateFeatures fs (i + 1)
    | Except.error e =>
      Except.error ("Invalid feature \x27" ++ f.name ++ "\x27: " ++ e)

/-- `Template.validate` from `template.py`: empty name, then non-positive
resolution, then the features in declaration order. -/
def Template.validate (t : Template) : Except String Unit :=
  if t.name = "" then Except.error "Template name cannot be empty"
  else if t.resolution.width ≤ 0 ∨ t.resolution.height ≤ 0 then
    Except.error ("Template resolution must be positive: " ++ t.resolution.pyRepr)
  else validateFeatures t.features 0

/-- The wrapped message `validateFeatures` produces for a failing feature. -/
def wrapFeatureError (f : Feature) (e : String) : String :=
  "Invalid feature \x27" ++ f.name ++ "\x27: " ++ e

theorem insertByLayer_perm (f : Feature) (l : List Feature) :
    List.Perm (insertByLayer f l) (f :: l) := by
  induction l with
  | nil => simp [insertByLayer]
  | cons g gs ih =>
    by_cases h : g.layer < f.layer
    · simp only [insertByLayer, if_pos h]
      exact List.Perm.trans (List.Perm.cons g ih) (List.Perm.swap f g gs)
    · simp [insertByLayer, if_neg h]

theorem sortByLayer_perm (l : List Feature) : List.Perm (sortByLayer l) l := by
  induction l with
  | nil => exact List.Perm.refl _
  | cons f fs ih =>
    exact List.Perm.trans (insertByLayer_perm f (sortByLayer fs)) (List.Perm.cons f ih)

theorem insertByLayer_pairwise (f : Feature) (l : List Feature)
    (h : List.Pairwise (fun a b => a.layer ≤ b.layer) l) :
    List.Pairwise (fun a b => a.layer ≤ b.layer) (insertByLayer f l) := by
  induction l with
  | nil => simp [insertByLayer]
  | cons g gs ih =>
    rcases List.pairwise_cons.mp h with ⟨hg, hgs⟩
    by_cases hlt : g.layer < f.layer
    · simp only [insertByLayer, if_pos hlt]
      refine List.pairwise_cons.mpr ⟨?_, ih hgs⟩
      intro b hb
      rcases List.mem_cons.mp ((insertByLayer_perm f gs).mem_iff.mp hb) with hb | hb
      · subst hb; omega
      · exact hg b hb
    · simp only [insertByLayer, if_neg hlt]
      refine List.pairwise_cons.mpr ⟨?_, h⟩
      intro b hb
      rcases List.mem_cons.mp hb with hb | hb
      · subst hb; omega
      · have := hg b hb; omega

theorem sortByLayer_pairwise (l : List Feature) :
    List.Pairwise (fun a b => a.layer ≤ b.layer) (sortByLayer l) := by
  induction l with
  | nil => simp [sortByLayer]
  | cons f fs ih => exact insertByLayer_pairwise f (sortByLayer fs) ih

theorem insertByLayer_filter_layer (f : Feature) (l : List Feature) (k : Int)
    (hs : List.Pairwise (fun a b => a.layer ≤ b.layer) l) :
    (insertByLayer f l).filter (fun g => g.layer = k) =
      (f :: l).filter (fun g => g.layer = k) := by
  induction l with
  | nil => simp [insertByLayer]
  | cons g gs ih =>
    rcases List.pairwise_cons.mp hs with ⟨hg, hgs⟩
    by_cases hlt : g.layer < f.layer
    · simp only [insertByLayer, if_pos hlt]
      by_cases hgk : g.layer = k
      · -- then f.layer ≠ k on the left of g in the claimed order: g.layer < f.layer
        by_cases hfk : f.layer = k
        · omega
        · simp [List.filter, hgk, hfk, decide_eq_true_eq] at *
          simpa [hgk, hfk] using ih hgs
      · simp only [List.filter]
        have hgk' : (decide (g.layer = k)) = false := by simp [hgk]
        rw [hgk']
        rw [ih hgs]
        simp only [List.filter, hgk']
    · simp [insertByLayer, if_neg hlt]

theorem sortByLayer_filter_layer (l : List Feature) (k : Int) :
    (sortByLayer l).filter (fun g => g.layer = k) = l.filter (fun g => g.layer = k) := by
  induction l with
  | nil => rfl
  | cons f fs ih =>
    have h1 := insertByLayer_filter_layer f (sortByLayer fs) k (sortByLayer_pairwise fs)
    simp only [sortByLayer, h1, List.filter]
    by_cases hfk : f.layer = k
    · simp [hfk, ih]
    · simp [hfk, ih]

/-- C6: `getFeaturesByLayer` is a stable ascending-layer sort: the result is
a permutation of the stored features, pairwise nondecreasing in layer, and
for every layer value the subsequence of features carrying that layer is
exactly the declaration-order subsequence — so any two equal-layer features
(in particular in lists with two or more of them) keep their declaration
order. -/
theorem getFeaturesByLayer_stable_sorted (t : Template) :
    List.Perm t.getFeaturesByLayer t.features ∧
    List.Pairwise (fun a b => a.layer ≤ b.layer) t.getFeaturesByLayer ∧
    ∀ k : Int, t.getFeaturesByLayer.filter (fun g => g.layer = k) =
      t.features.filter (fun g => g.layer = k) := by
  exact ⟨sortByLayer_perm t.features, sortByLayer_pairwise t.features,
    fun k => sortByLayer_filter_layer t.features k⟩

/-- C10: the state-passing embedding of `getFeaturesByLayer` leaves the
template untouched — the stored feature list keeps its elements and
declaration order, repeated calls return the same sorted list, and the
returned list is a fresh value (the sort of the stored list), not the
stored list itself. -/
theorem getFeaturesByLayerM_frame (t : Template) :
    (t.getFeaturesByLayerM).2 = t ∧
    (t.getFeaturesByLayerM).2.features = t.features ∧
    (t.getFeaturesByLayerM).1 = sortByLayer t.features ∧
    ((t.getFeaturesByLayerM).2.getFeaturesByLayerM).1 = (t.getFeaturesByLayerM).1 := by
  exact ⟨rfl, rfl, rfl, rfl⟩

theorem validateFeatures_ok_iff (fs : List Feature) (i : Nat) :
    validateFeatures fs i = Except.ok () ↔ ∀ f ∈ fs, f.validate = Except.ok () := by
  induction fs generalizing i with
  | nil => simp [validateFeatures]
  | cons f fs ih =>
    simp only [validateFeatures]
    cases hv : f.validate with
    | ok u =>
      cases u
      rw [ih (i + 1), List.forall_mem_cons]
      simp [hv]
    | error e =>
      rw [List.forall_mem_cons]
      simp [hv]

theorem validateFeatures_first_error (fs1 : List Feature) (f : Feature)
    (fs2 : List Feature) (e : String) (i : Nat)
    (hok : ∀ g ∈ fs1, g.validate = Except.ok ())
    (he : f.validate = Except.error e) :
    validateFeatures (fs1 ++ f :: fs2) i = Except.error (wrapFeatureError f e) := by
  induction fs1 generalizing i with
  | nil =>
    simp only [List.nil_append, validateFeatures, he, wrapFeatureError]
  | cons g gs ih =>
    have hg : g.validate = Except.ok () := hok g (List.mem_cons_self g gs)
    simp only [List.cons_append, validateFeatures, hg]
    exact ih (i + 1) (fun x hx => hok x (List.mem_cons_of_mem g hx))

theorem template_validate_ok_iff (t : Template) :
    t.validate = Except.ok () ↔
      (t.name ≠ "" ∧ 0 < t.resolution.width ∧ 0 < t.resolution.height ∧
       ∀ f ∈ t.features, f.validate = Except.ok ()) := by
  unfold Template.validate
  by_cases hn : t.name = ""
  · simp [hn]
  · rw [if_neg hn]
    by_cases hr : t.resolution.width ≤ 0 ∨ t.resolution.height ≤ 0
    · rw [if_pos hr]
      constructor
      · intro h; cases h
      · intro h; omega
    · rw [if_neg hr]
      rw [validateFeatures_ok_iff]
      constructor
      · intro h; exact ⟨hn, by omega, by omega, h⟩
      · intro h; exact h.2.2.2

/-- C4: `Template.validate` checks the name, then the resolution, then the
features in declaration order: it succeeds exactly when the name is
non-empty, both resolution axes are positive and every feature validates;
an empty name yields the name error; with a good name a non-positive
resolution axis yields the resolution error; and otherwise the first
invalid feature (all features before it valid) determines the result, its
own message wrapped with that feature's name, independently of all later
features. -/
theorem template_validate_spec (t : Template) :
    (t.validate = Except.ok () ↔
      (t.name ≠ "" ∧ 0 < t.resolution.width ∧ 0 < t.resolution.height ∧
       ∀ f ∈ t.features, f.validate = Except.ok ())) ∧
    (t.name = "" → t.validate = Except.error "Template name cannot be empty") ∧
    (t.name ≠ "" → (t.resolution.width ≤ 0 ∨ t.resolution.height ≤ 0) →
      t.validate = Except.error ("Template resolution must be positive: " ++ t.resolution.pyRepr)) ∧
    (∀ fs1 f fs2 e, t.features = fs1 ++ f :: fs2 →
      (∀ g ∈ fs1, g.validate = Except.ok ()) → f.validate = Except.error e →
      t.name ≠ "" → 0 < t.resolution.width → 0 < t.resolution.height →
      t.validate = Except.error (wrapFeatureError f e)) := by
  refine ⟨template_validate_ok_iff t, ?_, ?_, ?_⟩
  · intro hn; simp [Template.validate, hn]
  · intro hn hr
    unfold Template.validate
    rw [if_neg hn, if_pos hr]
  · intro fs1 f fs2 e hsplit hok he hn hw hh
    unfold Template.validate
    rw [if_neg hn, if_neg (by omega), hsplit]
    exact validateFeatures_first_error fs1 f fs2 e 0 hok he

/-- A concrete invalid feature (empty id) used by validation witnesses. -/
def badIdFeature : Feature :=
  { id := "", name := "ttl", kind := FeatureKind.text "k" "" {} }

/-- A concrete valid text feature used by validation and render witnesses. -/
def titleFeature : Feature :=
  { id := "title", name := "title", layer := 0, bbox := ⟨10, 10, 200, 50⟩,
    kind := FeatureKind.text "title" "" {} }

/-- Witness for C4 at a concrete template whose second feature is invalid:
validation fails with that feature's wrapped message. -/
theorem template_validate_spec_witness :
    (Template.mk "T" ⟨800, 600⟩ 300 0 0 [titleFeature, badIdFeature]).validate =
      Except.error (wrapFeatureError badIdFeature "Feature id cannot be empty") := by
  refine (template_validate_spec
    (Template.mk "T" ⟨800, 600⟩ 300 0 0 [titleFeature, badIdFeature])).2.2.2
    [titleFeature] badIdFeature [] "Feature id cannot be empty" rfl ?_ rfl
    (by decide) (by decide) (by decide)
  intro g hg
  have : g = titleFeature := by
    simpa using hg
  subst this
  rfl

/-- C7 counterexample: the `Template` constructor does not accept every
argument combination — with dpi 0 it raises instead of succeeding. -/
theorem mkTemplate_dpi_zero_errors :
    mkTemplate "T" ⟨800, 600⟩ 0 0 0 [] = Except.error "dpi must be positive, got 0" := by
  rfl

/-- C7 (amended): the `Template` constructor performs no validation of the
name, resolution or features — those checks are deferred to `validate()` —
but it does check the print metadata: it succeeds, storing every field
unchanged, exactly when dpi > 0, safeMargin ≥ 0 and bleed ≥ 0, and raises
otherwise, independently of name, resolution and features. -/
theorem mkTemplate_spec (name : String) (resolution : Resolution)
    (dpi safeMargin bleed : Int) (features : List Feature) :
    (0 < dpi → 0 ≤ safeMargin → 0 ≤ bleed →
      mkTemplate name resolution dpi safeMargin bleed features =
        Except.ok ⟨name, resolution, dpi, safeMargin, bleed, features⟩) ∧
    (dpi ≤ 0 → mkTemplate name resolution dpi safeMargin bleed features =
      Except.error ("dpi must be positive, got " ++ toString dpi)) ∧
    (0 < dpi → safeMargin < 0 → mkTemplate name resolution dpi safeMargin bleed features =
      Except.error ("safeMargin must be non-negative, got " ++ toString safeMargin)) ∧
    (0 < dpi → 0 ≤ safeMargin → bleed < 0 →
      mkTemplate name resolution dpi safeMargin bleed features =
        Except.error ("bleed must be non-negative, got " ++ toString bleed)) := by
  refine ⟨?_, ?_, ?_, ?_⟩
  · intro h1 h2 h3
    unfold mkTemplate
    rw [if_neg (by omega), if_neg (by omega), if_neg (by omega)]
  · intro h1
    unfold mkTemplate
    rw [if_pos h1]
  · intro h1 h2
    unfold mkTemplate
    rw [if_neg (by omega), if_pos h2]
  · intro h1 h2 h3
    unfold mkTemplate
    rw [if_neg (by omega), if_neg (by omega), if_pos h3]

/-- Witness for the amended C7: a constructor call with empty name, zero
resolution and an invalid feature still succeeds (no validation at
construction), storing the fields unchanged. -/
theorem mkTemplate_spec_witness :
    mkTemplate "" ⟨0, 0⟩ 300 0 0 [badIdFeature] =
      Except.ok ⟨"", ⟨0, 0⟩, 300, 0, 0, [badIdFeature]⟩ := by
  exact (mkTemplate_spec "" ⟨0, 0⟩ 300 0 0 [badIdFeature]).1 (by decide) (by decide) (by decide)

/-- The placeholder font handle `render.py` caches: `{"path": path, "size": size}`. -/
structure FontHandle where
  path : String
  size : Int
deriving DecidableEq, Repr

/-- The placeholder image handle `render.py` caches: `{"path": path}`. -/
structure ImageHandle where
  path : String
deriving DecidableEq, Repr

/-- `ResourceCache` from `render.py`: the two memoization dictionaries,
keyed by (path, size) for fonts and by path for images. -/
structure ResourceCache where
  fonts : List ((String × Int) × FontHandle)
  images : List (String × ImageHandle)
deriving DecidableEq, Repr

/-- A fresh `ResourceCache()`. -/
def ResourceCache.init : ResourceCache := ⟨[], []⟩

/-- Exact-key dictionary lookup for the font cache. -/
def lookupFont : List ((String × Int) × FontHandle) → String → Int → Option FontHandle
  | [], _, _ => none
  | (k, h) :: rest, p, s => if k = (p, s) then some h else lookupFont rest p s

/-- Exact-key dictionary lookup for the image cache. -/
def lookupImage : List (String × ImageHandle) → String → Option ImageHandle
  | [], _ => none
  | (k, h) :: rest, p => if k = p then some h else lookupImage rest p

/-- `ResourceCache.getFont` from `render.py`: return the cached handle for
the exact (path, size) key, or insert and return the placeholder handle. -/
def ResourceCache.getFont (c : ResourceCache) (path : String) (size : Int) :
    FontHandle × ResourceCache :=
  match lookupFont c.fonts path size with
  | some h => (h, c)
  | none => (⟨path, size⟩, { c with fonts := c.fonts ++ [((path, size), ⟨path, size⟩)] })

/-- `ResourceCache.getImage` from `render.py`: return the cached handle for
the exact path key, or insert and return the placeholder handle. -/
def ResourceCache.getImage (c : ResourceCache) (path : String) :
    ImageHandle × ResourceCache :=
  match lookupImage c.images path with
  | some h => (h, c)
  | none => (⟨path⟩, { c with images := c.images ++ [(path, ⟨path⟩)] })

/-- Cache well-formedness: every stored entry is the placeholder handle for
its own key. Holds for the fresh cache and is preserved by both accessors,
so it holds for every reachable `ResourceCache` instance. -/
def ResourceCache.WF (c : ResourceCache) : Prop :=
  (∀ p s h, ((p, s), h) ∈ c.fonts → h = ⟨p, s⟩) ∧
  (∀ p h, (p, h) ∈ c.images → h = ⟨p⟩)

theorem resourceCache_init_wf : ResourceCache.WF ResourceCache.init := by
  constructor
  · intro p s h hmem; cases hmem
  · intro p h hmem; cases hmem

theorem lookupFont_mem (l : List ((String × Int) × FontHandle)) (p : String) (s : Int)
    (h : FontHandle) (hl : lookupFont l p s = some h) : ((p, s), h) ∈ l := by
  induction l with
  | nil => cases hl
  | cons e rest ih =>
    obtain ⟨k, hh⟩ := e
    simp only [lookupFont] at hl
    split at hl
    · rename_i hk
      injection hl with hhh
      subst hk; subst hhh
      exact List.mem_cons_self _ _
    · exact List.mem_cons_of_mem _ (ih hl)

theorem lookupImage_mem (l : List (String × ImageHandle)) (p : String)
    (h : ImageHandle) (hl : lookupImage l p = some h) : (p, h) ∈ l := by
  induction l with
  | nil => cases hl
  | cons e rest ih =>
    obtain ⟨k, hh⟩ := e
    simp only [lookupImage] at hl
    split at hl
    · rename_i hk
      injection hl with hhh
      subst hk; subst hhh
      exact List.mem_cons_self _ _
    · exact List.mem_cons_of_mem _ (ih hl)

theorem getFont_fst_of_wf (c : ResourceCache) (p : String) (s : Int)
    (hwf : c.WF) : (c.getFont p s).1 = ⟨p, s⟩ := by
  unfold ResourceCache.getFont
  cases hl : lookupFont c.fonts p s with
  | none => rfl
  | some h => exact hwf.1 p s h (lookupFont_mem c.fonts p s h hl)

theorem getImage_fst_of_wf (c : ResourceCache) (p : String)
    (hwf : c.WF) : (c.getImage p).1 = ⟨p⟩ := by
  unfold ResourceCache.getImage
  cases hl : lookupImage c.images p with
  | none => rfl
  | some h => exact hwf.2 p h (lookupImage_mem c.images p h hl)

theorem getFont_wf (c : ResourceCache) (p : String) (s : Int)
    (hwf : c.WF) : (c.getFont p s).2.WF := by
  unfold ResourceCache.getFont
  cases hl : lookupFont c.fonts p s with
  | some h => exact hwf
  | none =>
    refine ⟨?_, hwf.2⟩
    intro p' s' h' hmem
    rcases List.mem_append.mp hmem with hmem | hmem
    · exact hwf.1 p' s' h' hmem
    · rcases List.mem_singleton.mp hmem with h
      injection h with h1 h2
      injection h1 with h3 h4
      subst h3; subst h4
      exact h2

theorem getImage_wf (c : ResourceCache) (p : String)
    (hwf : c.WF) : (c.getImage p).2.WF := by
  unfold ResourceCache.getImage
  cases hl : lookupImage c.images p with
  | some h => exact hwf
  | none =>
    refine ⟨hwf.1, ?_⟩
    intro p' h' hmem
    rcases List.mem_append.mp hmem with hmem | hmem
    · exact hwf.2 p' h' hmem
    · rcases List.mem_singleton.mp hmem with h
      injection h with h1 h2
      subst h1
      exact h2

theorem lookupFont_append_self (l : List ((String × Int) × FontHandle)) (p : String)
    (s : Int) (h : FontHandle) (hl : lookupFont l p s = none) :
    lookupFont (l ++ [((p, s), h)]) p s = some h := by
  induction l with
  | nil => simp [lookupFont]
  | cons e rest ih =>
    obtain ⟨k, hh⟩ := e
    by_cases hk : k = (p, s)
    · simp only [lookupFont, if_pos hk] at hl; cases hl
    · simp only [lookupFont, if_neg hk] at hl ⊢
      exact ih hl

theorem lookupImage_append_self (l : List (String × ImageHandle)) (p : String)
    (h : ImageHandle) (hl : lookupImage l p = none) :
    lookupImage (l ++ [(p, h)]) p = some h := by
  induction l with
  | nil => simp [lookupImage]
  | cons e rest ih =>
    obtain ⟨k, hh⟩ := e
    by_cases hk : k = p
    · simp only [lookupImage, if_pos hk] at hl; cases hl
    · simp only [lookupImage, if_neg hk] at hl ⊢
      exact ih hl

theorem getFont_idempotent (c : ResourceCache) (p : String) (s : Int) :
    (c.getFont p s).2.getFont p s = c.getFont p s := by
  unfold ResourceCache.getFont
  cases hl : lookupFont c.fonts p s with
  | some h => simp [ResourceCache.getFont, hl]
  | none =>
    have := lookupFont_append_self c.fonts p s ⟨p, s⟩ hl
    simp [ResourceCache.getFont, this]

theorem getImage_idempotent (c : ResourceCache) (p : String) :
    (c.getImage p).2.getImage p = c.getImage p := by
  unfold ResourceCache.getImage
  cases hl : lookupImage c.images p with
  | some h => simp [ResourceCache.getImage, hl]
  | none =>
    have := lookupImage_append_self c.images p ⟨p⟩ hl
    simp [ResourceCache.getImage, this]

/-- C8: on any reachable (well-formed) `ResourceCache`, a second
`getImage(p)` returns the identical cached handle and leaves the cache
unchanged; a second `getFont(p, s)` likewise; and `getFont(p, s1)` followed
by `getFont(p, s2)` on the updated cache return distinct handles whenever
`s1 ≠ s2`, because the cache key is exact on (path, size) for fonts and on
path for images. -/
theorem resourceCache_memoization (c : ResourceCache) (p : String) (s s1 s2 : Int)
    (hwf : c.WF) :
    ((c.getImage p).2.getImage p = c.getImage p) ∧
    ((c.getFont p s).2.getFont p s = c.getFont p s) ∧
    (s1 ≠ s2 → ((c.getFont p s1).2.getFont p s2).1 ≠ (c.getFont p s1).1) := by
  refine ⟨getImage_idempotent c p, getFont_idempotent c p s, ?_⟩
  intro hne
  rw [getFont_fst_of_wf c p s1 hwf,
    getFont_fst_of_wf (c.getFont p s1).2 p s2 (getFont_wf c p s1 hwf)]
  intro h
  injection h with h1 h2
  exact hne h2.symm

/-- Witness for C8 on the fresh cache with sizes 12 and 24. -/
theorem resourceCache_memoization_witness :
    ((ResourceCache.init.getImage "img.png").2.getImage "img.png" =
      ResourceCache.init.getImage "img.png") ∧
    ((ResourceCache.init.getFont "font.ttf" 12).2.getFont "font.ttf" 12 =
      ResourceCache.init.getFont "font.ttf" 12) ∧
    (((ResourceCache.init.getFont "font.ttf" 12).2.getFont "font.ttf" 24).1 ≠
      (ResourceCache.init.getFont "font.ttf" 12).1) := by
  have h := resourceCache_memoization ResourceCache.init "img.png" 12 12 24
    resourceCache_init_wf
  have h12 : ((ResourceCache.init.getFont "font.ttf" 12).2.getFont "font.ttf" 12 =
      ResourceCache.init.getFont "font.ttf" 12) := getFont_idempotent _ _ _
  have h24 := (resourceCache_memoization ResourceCache.init "font.ttf" 12 12 24
    resourceCache_init_wf).2.2 (by decide)
  exact ⟨h.1, h12, h24⟩

/-- `CardData` from `render.py`: flat string-to-string mapping. -/
structure CardData where
  values : List (String × String)
deriving DecidableEq, Repr

/-- `CardData.get` from `render.py`: `dict.get(key, default)`. -/
def CardData.get (d : CardData) (key : String) (dflt : String := "") : String :=
  match lookupValue d.values key with
  | some v => v
  | none => dflt
where
  /-- Exact-key dictionary lookup for the data mapping. -/
  lookupValue : List (String × String) → String → Option String
    | [], _ => none
    | (k, v) :: rest, key => if k = key then some v else lookupValue rest key

/-- `CardConfig` from `render.py` (global styles are opaque to the core; the
renderer never reads either field). -/
structure CardConfig where
  tokens : List (String × String) := []
deriving DecidableEq, Repr

/-- `RenderContext` from `render.py` after a successful `__init__`. -/
structure RenderContext where
  canvasW : Int
  canvasH : Int
  dpi : Int
  backend : String
  resources : ResourceCache
  data : CardData
deriving DecidableEq, Repr

/-- `RenderContext.__init__` from `render.py`: rejects non-positive canvas
dimensions, then non-positive dpi; the renderer passes no cache, so a fresh
`ResourceCache()` is created. -/
def mkRenderContext (canvasW canvasH : Int) (dpi : Int) (data : CardData) :
    Except String RenderContext :=
  if canvasW ≤ 0 ∨ canvasH ≤ 0 then
    Except.error ("Canvas dimensions must be positive: " ++ toString canvasW ++ "x" ++
      toString canvasH)
  else if dpi ≤ 0 then Except.error ("dpi must be positive, got " ++ toString dpi)
  else Except.ok ⟨canvasW, canvasH, dpi, "Pillow", ResourceCache.init, data⟩

/-- One draw call issued against the `RenderContext`: `drawText(text, bbox,
style)` or `drawImage(img, x, y, w, h, radius)` from `render.py`. -/
inductive DrawCall where
  | text (text : String) (bbox : BBox) (style : TextStyle)
  | image (img : ImageHandle) (x y w h radius : Int)
deriving DecidableEq, Repr

/-- `TextFeature.render` / `ImageFeature.render` from `features.py`: lay out
against the context's canvas, resolve the bound data value with the
feature's fallback, then issue exactly one draw call; an image feature
first loads its handle through the context's resource cache (returned
updated). -/
def Feature.render (f : Feature) (ctx : RenderContext) :
    List DrawCall × ResourceCache :=
  let actual := f.layout ctx.canvasW ctx.canvasH
  match f.kind with
  | FeatureKind.text textKey fallbackText style =>
    ([DrawCall.text (ctx.data.get textKey fallbackText) actual style], ctx.resources)
  | FeatureKind.image imageKey fallbackImage style =>
    let path := ctx.data.get imageKey fallbackImage
    let r := ctx.resources.getImage path
    ([DrawCall.image r.1 actual.x actual.y actual.w actual.h style.radius], r.2)

/-- `CardRenderer._composeLayers` from `render.py`: render each enabled
feature in the given order against the shared context, accumulating the
issued draw calls and threading the cache mutation. -/
def composeLayers : List Feature → RenderContext → List DrawCall × RenderContext
  | [], ctx => ([], ctx)
  | f :: fs, ctx =>
    if f.enabled then
      let r := f.render ctx
      let rest := composeLayers fs { ctx with resources := r.2 }
      (r.1 ++ rest.1, rest.2)
    else composeLayers fs ctx

/-- `RenderedImage` from `render.py` after a successful `__init__`. -/
structure RenderedImage where
  width : Int
  height : Int
deriving DecidableEq, Repr

/-- `RenderedImage.__init__` from `render.py`: rejects non-positive
dimensions. -/
def mkRenderedImage (width height : Int) : Except String RenderedImage :=
  if width ≤ 0 ∨ height ≤ 0 then
    Except.error ("Image dimensions must be positive: " ++ toString width ++ "x" ++
      toString height)
  else Except.ok ⟨width, height⟩

/-- `CardRenderer.render` from `render.py`: validate the template (raising
propagates), build a `RenderContext` on the template's resolution and dpi,
compose the layer-sorted features, and package a `RenderedImage` of the
template's resolution. The result carries the rendered image together with
the sequence of draw calls issued to the context. The `cfg` argument is
accepted and ignored, exactly as in the source. -/
def CardRenderer.render (t : Template) (data : CardData) (cfg : CardConfig) :
    Except String (RenderedImage × List DrawCall) :=
  match t.validate with
  | Except.error e => Except.error e
  | Except.ok () =>
    match mkRenderContext t.resolution.width t.resolution.height t.dpi data with
    | Except.error e => Except.error e
    | Except.ok ctx =>
      let r := composeLayers t.getFeaturesByLayer ctx
      match mkRenderedImage t.resolution.width t.resolution.height with
      | Except.error e => Except.error e
      | Except.ok img => Except.ok (img, r.1)

/-- The draw call a feature issues, expressed directly from the feature, the
card data and the canvas size (what the code produces on a well-formed
cache). -/
def specDraw (f : Feature) (data : CardData) (canvasW canvasH : Int) : DrawCall :=
  let actual := f.layout canvasW canvasH
  match f.kind with
  | FeatureKind.text textKey fallbackText style =>
    DrawCall.text (data.get textKey fallbackText) actual style
  | FeatureKind.image imageKey fallbackImage style =>
    DrawCall.image ⟨data.get imageKey fallbackImage⟩ actual.x actual.y actual.w actual.h
      style.radius

theorem composeLayers_draws (fs : List Feature) (ctx : RenderContext)
    (hwf : ctx.resources.WF) :
    (composeLayers fs ctx).1 =
      (fs.filter (fun f => f.enabled)).map
        (fun f => specDraw f ctx.data ctx.canvasW ctx.canvasH) ∧
    (composeLayers fs ctx).2.canvasW = ctx.canvasW ∧
    (composeLayers fs ctx).2.canvasH = ctx.canvasH ∧
    (composeLayers fs ctx).2.data = ctx.data ∧
    (composeLayers fs ctx).2.resources.WF := by
  induction fs generalizing ctx with
  | nil => exact ⟨rfl, rfl, rfl, rfl, hwf⟩
  | cons f fs ih =>
    by_cases he : f.enabled
    · simp only [composeLayers, if_pos he]
      cases hk : f.kind with
      | text textKey fallbackText style =>
        have hctx : ({ ctx with resources := (f.render ctx).2 } : RenderContext) = ctx := by
          simp [Feature.render, hk]
        rw [hctx] at *
        have hr := ih ctx hwf
        refine ⟨?_, hr.2.1, hr.2.2.1, hr.2.2.2.1, hr.2.2.2.2⟩
        simp only [Feature.render, hk, List.filter, he, List.map, hr.1]
        simp [specDraw, hk]
      | image imageKey fallbackImage style =>
        set path := ctx.data.get imageKey fallbackImage with hpath
        have hfst : ((f.render ctx).1 : List DrawCall) =
            [specDraw f ctx.data ctx.canvasW ctx.canvasH] := by
          simp only [Feature.render, hk, specDraw]
          rw [getImage_fst_of_wf ctx.resources path hwf]
        have hwf2 : ({ ctx with resources := (f.render ctx).2 } : RenderContext).resources.WF := by
          simp only [Feature.render, hk]
          exact getImage_wf ctx.resources path hwf
        have hr := ih { ctx with resources := (f.render ctx).2 } hwf2
        refine ⟨?_, hr.2.1, hr.2.2.1, hr.2.2.2.1, hr.2.2.2.2⟩
        rw [hfst]
        simp only [List.filter, he, List.map]
        rw [hr.1]
        rfl
    · simp only [composeLayers, if_neg he]
      have hr := ih ctx hwf
      refine ⟨?_, hr.2.1, hr.2.2.1, hr.2.2.2.1, hr.2.2.2.2⟩
      rw [hr.1]
      have : (f.enabled : Bool) = false := by
        cases hb : f.enabled
        · rfl
        · exact absurd rfl (hb ▸ he)
      simp [List.filter, this]

/-- C5: when template validation fails, `CardRenderer.render` propagates the
very same validation error: no render context, draw call or rendered image
is produced (the success payload carrying them is never built). -/
theorem render_propagates_validation_error (t : Template) (data : CardData)
    (cfg : CardConfig) (e : String) (hv : t.validate = Except.error e) :
    CardRenderer.render t data cfg = Except.error e := by
  unfold CardRenderer.render
  rw [hv]

/-- Witness for C5 on a concrete template with an empty name. -/
theorem render_propagates_validation_error_witness :
    (Template.mk "" ⟨800, 600⟩ 300 0 0 []).validate =
      Except.error "Template name cannot be empty" ∧
    CardRenderer.render (Template.mk "" ⟨800, 600⟩ 300 0 0 []) ⟨[]⟩ ⟨[]⟩ =
      Except.error "Template name cannot be empty" := by
  refine ⟨rfl, render_propagates_validation_error _ ⟨[]⟩ ⟨[]⟩ _ rfl⟩

/-- C3: on any valid template (with the constructor-guaranteed positive
dpi), any card data and any config, `render` succeeds with an image of
exactly the template's resolution, and the issued draw calls are exactly
one per enabled feature — the stable layer-ascending order of the declared
features, disabled ones filtered out — each carrying the layout-resolved
bbox against the context's canvas (the template resolution), not the
declared bbox; consequently their number is the feature count minus the
disabled count. -/
theorem render_spec (t : Template) (data : CardData) (cfg : CardConfig)
    (hv : t.validate = Except.ok ()) (hdpi : 0 < t.dpi) :
    CardRenderer.render t data cfg =
      Except.ok (⟨t.resolution.width, t.resolution.height⟩,
        ((sortByLayer t.features).filter (fun f => f.enabled)).map
          (fun f => specDraw f data t.resolution.width t.resolution.height)) ∧
    List.Pairwise (fun a b => a.layer ≤ b.layer)
      ((sortByLayer t.features).filter (fun f => f.enabled)) ∧
    (((sortByLayer t.features).filter (fun f => f.enabled)).map
        (fun f => specDraw f data t.resolution.width t.resolution.height)).length =
      t.features.length - (t.features.filter (fun f => !f.enabled)).length := by
  have hiff := (template_validate_ok_iff t).mp hv
  obtain ⟨hn, hw, hh, hf⟩ := hiff
  have hctx : mkRenderContext t.resolution.width t.resolution.height t.dpi data =
      Except.ok ⟨t.resolution.width, t.resolution.height, t.dpi, "Pillow",
        ResourceCache.init, data⟩ := by
    unfold mkRenderContext
    rw [if_neg (by omega), if_neg (by omega)]
  have himg : mkRenderedImage t.resolution.width t.resolution.height =
      Except.ok ⟨t.resolution.width, t.resolution.height⟩ := by
    unfold mkRenderedImage
    rw [if_neg (by omega)]
  have hdraws := composeLayers_draws t.getFeaturesByLayer
    ⟨t.resolution.width, t.resolution.height, t.dpi, "Pillow", ResourceCache.init, data⟩
    resourceCache_init_wf
  refine ⟨?_, ?_, ?_⟩
  · unfold CardRenderer.render
    rw [hv, hctx, himg]
    rw [show (⟨t.resolution.width, t.resolution.height, t.dpi, "Pillow",
      ResourceCache.init, data⟩ : RenderContext).data = data from rfl] at hdraws
    rw [Except.ok.injEq, Prod.mk.injEq]
    exact ⟨rfl, hdraws.1⟩
  · exact List.Pairwise.filter _ (sortByLayer_pairwise t.features)
  · rw [List.length_map]
    have hperm : List.Perm (sortByLayer t.features) t.features := sortByLayer_perm t.features
    have hperm2 : List.Perm ((sortByLayer t.features).filter (fun f => f.enabled))
        (t.features.filter (fun f => f.enabled)) := List.Perm.filter _ hperm
    rw [List.Perm.length_eq hperm2]
    have hlen : t.features.length =
        (t.features.filter (fun f => f.enabled)).length +
          (t.features.filter (fun f => !f.enabled)).length :=
      List.length_eq_length_filter_add _
    omega

/-- Witness for C3: the spec's end-to-end example — template "Test Card" at
800×600 with one enabled text feature on bbox (10,10,200,50) and data
binding "title" to "Test Title" renders to an 800×600 image with exactly
one drawText call for that bbox and text. -/
theorem render_spec_witness :
    CardRenderer.render
        (Template.mk "Test Card" ⟨800, 600⟩ 300 0 0 [titleFeature])
        ⟨[("title", "Test Title")]⟩ ⟨[]⟩ =
      Except.ok (⟨800, 600⟩,
        [DrawCall.text "Test Title" ⟨10, 10, 200, 50⟩ {}]) := by
  have h := (render_spec (Template.mk "Test Card" ⟨800, 600⟩ 300 0 0 [titleFeature])
    ⟨[("title", "Test Title")]⟩ ⟨[]⟩ (by rfl) (by decide)).1
  rw [h]
  rfl

end CardCrafter
